import Mathlib

/-!
Shallow embedding of `src/twitch_scraper.py`.

The script fetches a ranked list of Twitch streamers from an analytics API,
fetches per-streamer history for three time windows, normalizes the records
and inserts them into one PostgreSQL table per streamer with an
insert-if-absent policy keyed on the `date` column.

Conventions of the embedding:
* Parsed JSON records become structures with `Option` fields; a field that may
  be missing from the JSON object is an `Option`, with `none` for "absent".
* Python `dict` values are association lists; assignment `m[k] = v` is
  `dictInsert`, which replaces the value of an existing key in place
  (keeping its position) and otherwise adds the pair at the end, exactly as a
  Python dict does.
* A Python exception is `none` in an `Option`-valued result when the source
  lets it escape (the `KeyError` in `scrape`), and an error oracle
  `ErrOracle` for the `try`/`except` around the row insert in
  `CompileData.append`, which models "any exception during a single row
  insert".
* The PostgreSQL connection of `CompileData.append` is `PgConn`:
  `committed` holds the durable rows, `pending` the rows inserted since the
  last `commit`/`rollback`.  `INSERT ... ON CONFLICT (date) DO NOTHING`
  inserts into `pending` unless a row of the same table with the same `date`
  is visible; `conn.rollback()` empties `pending`; `conn.commit()` moves
  `pending` into `committed`.
* Log calls are recorded as `LogLevel` values where a claim is about logging.
-/

namespace TwitchScraper

/-- Levels of the log records the script emits through `logging`. -/
inductive LogLevel where
  | info
  | debug
  | error
deriving DecidableEq, Repr

/-- One element of the `data` array returned by the ranking endpoint
(`GET {base}/channels?...`), as used by `GetStreamers.scrape`: only the
`channel_name` and `average_viewers` fields are read, each of which may be
missing from the JSON object. -/
structure RankEntry where
  channel_name : Option String
  average_viewers : Option Int
deriving DecidableEq, Repr

/-- The sort key of `GetStreamers.scrape`, line 37 of the source:
`s.get('average_viewers', 0)` — a missing field counts as `0`. -/
def viewersKey (s : RankEntry) : Int :=
  s.average_viewers.getD 0

/-- The comparison realizing `sorted(data, key=..., reverse=True)`:
`a` may come before `b` when the key of `b` is at most the key of `a`.
Python sorting is stable, as is `List.mergeSort`. -/
def descLe (a b : RankEntry) : Bool :=
  decide (viewersKey b ≤ viewersKey a)

/-- A ranking response: HTTP status, and the parsed `data` array
(`response.json().get('data', [])`, so an absent field is already `[]`). -/
structure RankingResponse where
  status : Nat
  data : List RankEntry
deriving Repr

/-- The list comprehension `[s['channel_name'] for s in top_20]` of line 39:
`s['channel_name']` raises `KeyError` when the field is missing, which the
source does not catch, so the result is `none` in that case. -/
def channelNames : List RankEntry → Option (List String)
  | [] => some []
  | s :: rest =>
    match s.channel_name, channelNames rest with
    | some n, some ns => some (n :: ns)
    | _, _ => none

/-- `GetStreamers.scrape`, lines 27-45.  Returns the value of
`self.streamers` (`none` when the `KeyError` escapes) together with the levels
of the log records emitted: `info` then `debug` before the status test, then
on the 200 branch `info` and `debug` after the list is built, and on the
non-200 branch a single `error`. -/
def scrape (resp : RankingResponse) : Option (List String) × List LogLevel :=
  if resp.status = 200 then
    let sorted_data := resp.data.mergeSort descLe
    let top_20 := sorted_data.take 20
    match channelNames top_20 with
    | some names => (some names, [.info, .debug, .info, .debug])
    | none => (none, [.info, .debug])
  else
    (some [], [.info, .debug, .error])

/-- The history record fields read by `CompileData.format`: the JSON object of
the history endpoint may lack any of them.  `date` is written by
`GetStreamers.history` (line 63) before the record is stored. -/
structure HistRecord where
  average_viewers : Option Int
  stream_days : Option Int
  date : Option String
deriving DecidableEq, Repr

/-- A history response: HTTP status and the parsed `data` object.
`response.json().get('data', {})` with the falsy-`{}` test of line 62 is
modelled as an `Option`, `none` standing for a missing or empty object. -/
structure HistResponse where
  status : Nat
  data : Option HistRecord
deriving Repr

/-- `time_periods` of `GetStreamers.history`, line 49. -/
def timePeriods : List String :=
  ["7-days", "last-month", "last-year"]

/-- The record (if any) that one iteration of the inner loop of
`GetStreamers.history` (lines 52-68) adds for `streamer` and `period`:
on a 200 status with a non-empty `data` object the record is kept with
`date` set to the period label; otherwise nothing is added. -/
def succRecord (histResp : String → String → HistResponse)
    (streamer period : String) : Option HistRecord :=
  let r := histResp streamer period
  if r.status = 200 then
    match r.data with
    | some d => some { d with date := some period }
    | none => none
  else
    none

/-- The full record list `self.history_data[streamer]` built by
`GetStreamers.history` for one streamer: the successful periods, in the
order of `time_periods`. -/
def historyOne (histResp : String → String → HistResponse)
    (streamer : String) : List HistRecord :=
  timePeriods.filterMap (succRecord histResp streamer)

/-- Python dict assignment `m[k] = v` on an association list: replace the
value of an existing key in place, otherwise add the pair at the end. -/
def dictInsert {V : Type} : List (String × V) → String → V → List (String × V)
  | [], k, v => [(k, v)]
  | p :: m, k, v => if p.1 = k then (k, v) :: m else p :: dictInsert m k v

/-- Python dict read `m[k]` (as an `Option`): value of the first - hence
only - pair with the given key. -/
def dictLookup {V : Type} : List (String × V) → String → Option V
  | [], _ => none
  | p :: m, k => if p.1 = k then some p.2 else dictLookup m k

/-- `GetStreamers.history`, lines 47-69: for each streamer, in order, the
dict entry is set to that streamer's record list. -/
def history (histResp : String → String → HistResponse)
    (streamers : List String) : List (String × List HistRecord) :=
  streamers.foldl (fun acc s => dictInsert acc s (historyOne histResp s)) []

/-- Python `str.lower()` character by character (`Char.toLower` maps the
ASCII letters, which is what streamer keys consist of). -/
def strLower (s : String) : String :=
  ⟨s.data.map Char.toLower⟩

/-- The table name computed in `CompileData.database`, line 90:
the fixed text `streamer_` followed by the lowercased streamer key. -/
def tableNameDatabase (streamer : String) : String :=
  "streamer_" ++ strLower streamer

/-- The table name computed in `CompileData.format`, line 108 - textually the
same derivation as in `CompileData.database`, written at a second site. -/
def tableNameFormat (streamer : String) : String :=
  "streamer_" ++ strLower streamer

/-- One row of a streamer table, in the column order of the insert of
line 134: `(date, average_viewers, stream_days)`. -/
abbrev Line := Option String × Option Int × Option Int

/-- The tuple built for one record in `CompileData.format`, lines 111-114:
each component is the `get` of the corresponding field, passed through
unchanged. -/
def formatLine (r : HistRecord) : Line :=
  (r.date, r.average_viewers, r.stream_days)

/-- `CompileData.format`, lines 104-118: builds the dict from table name to
the list of tuples of that streamer's records. -/
def format (history_data : List (String × List HistRecord)) :
    List (String × List Line) :=
  history_data.foldl
    (fun acc p => dictInsert acc (tableNameFormat p.1) (p.2.map formatLine)) []

/-- State of the PostgreSQL connection opened by `CompileData.append`:
`committed` is the durable content of all streamer tables (pairs of table
name and row), `pending` the rows inserted since the last commit or
rollback. -/
structure PgConn where
  committed : List (String × Line)
  pending : List (String × Line)
deriving DecidableEq, Repr

/-- Oracle deciding whether executing the row insert of line 133 raises an
exception for a given table and row - the embedding of "any exception during
a single row insert". -/
def ErrOracle : Type :=
  String → Line → Bool

/-- Whether a row of table `t` with date `d` is visible to the transaction
(committed rows plus pending inserts) - the condition under which
`ON CONFLICT (date) DO NOTHING` skips the insert. -/
def rowVisible (conn : PgConn) (t : String) (d : Option String) : Bool :=
  (conn.committed ++ conn.pending).any (fun p => p.1 = t ∧ p.2.1 = d)

/-- One iteration of the inner loop of `CompileData.append`, lines 131-140:
if the execute raises, the exception is caught, logged, and `conn.rollback()`
empties the pending inserts; otherwise the row is added unless a row with the
same date is already visible in that table. -/
def executeInsert (err : ErrOracle) (conn : PgConn) (t : String) (l : Line) :
    PgConn :=
  if err t l then
    { conn with pending := [] }
  else if rowVisible conn t l.1 then
    conn
  else
    { conn with pending := conn.pending ++ [(t, l)] }

/-- The inner loop of `CompileData.append` over the rows of one table. -/
def appendLines (err : ErrOracle) (conn : PgConn) (t : String) :
    List Line → PgConn
  | [] => conn
  | l :: ls => appendLines err (executeInsert err conn t l) t ls

/-- `conn.commit()`, line 141: pending inserts become durable. -/
def commitConn (conn : PgConn) : PgConn :=
  { committed := conn.committed ++ conn.pending, pending := [] }

/-- `CompileData.append`, lines 120-144: starting from the stored rows, run
the per-table inner loops on one connection and commit once at the end;
the result is the durable table content. -/
def append (err : ErrOracle) (streamer_lines : List (String × List Line))
    (stored : List (String × Line)) : List (String × Line) :=
  (commitConn
    (streamer_lines.foldl (fun conn p => appendLines err conn p.1 p.2)
      { committed := stored, pending := [] })).committed

/-- The rows of table `t` carrying date `d` among the stored rows. -/
def rowsFor (stored : List (String × Line)) (t : String) (d : Option String) :
    List Line :=
  (stored.filter (fun p => decide (p.1 = t ∧ p.2.1 = d))).map (fun p => p.2)

/-- The oracle of an error-free run: no row insert raises. -/
def noErr : ErrOracle :=
  fun _ _ => false

/-- A concrete realizable failure: the `date` column is the primary key of
every streamer table, hence NOT NULL, so inserting a row whose date is NULL
raises `NotNullViolation`. -/
def pgNullKeyErr : ErrOracle :=
  fun _ l => l.1.isNone

/-- The environment variables read by `main`: `os.getenv` yields `none` when
the variable is absent. -/
structure Env where
  client_id : Option String
  token : Option String
deriving Repr

/-- Python truthiness of `os.getenv(...)` as used in `if not client_id or not
token`: an absent variable and an empty string are both falsy. -/
def falsy : Option String → Bool
  | none => true
  | some s => s = ""

/-- The observable operations of one run of `main`: HTTP requests, database
connections, DDL and row inserts, and the credentials error log. -/
inductive Op where
  | httpRanking
  | httpHistory (streamer period : String)
  | dbConnect
  | createTable (table : String)
  | insertRow (table : String) (l : Line)
  | logCredsError
deriving DecidableEq, Repr

/-- Operations of `GetStreamers.history`: one HTTP request per streamer and
period, in loop order. -/
def historyOps (streamers : List String) : List Op :=
  streamers.flatMap (fun s => timePeriods.map (fun p => Op.httpHistory s p))

/-- Operations of `CompileData.database`, lines 79-102: connect, then one
`CREATE TABLE IF NOT EXISTS` per streamer. -/
def databaseOps (streamers : List String) : List Op :=
  Op.dbConnect :: streamers.map (fun s => Op.createTable (tableNameDatabase s))

/-- Operations of `CompileData.append`: connect, then one insert attempt per
row of each table. -/
def appendOps (streamer_lines : List (String × List Line)) : List Op :=
  Op.dbConnect ::
    streamer_lines.flatMap (fun p => p.2.map (fun l => Op.insertRow p.1 l))

/-- `main`, lines 191-211, as the trace of observable operations of one run,
for given environment and HTTP responses.  When a credential is falsy the run
logs and returns at line 197.  Otherwise `scrape` runs (one ranking request);
if its `KeyError` escapes, the run dies there.  Otherwise the run continues
unconditionally - the source has no test on an empty streamer list - through
`history`, `CompileData.database`, `CompileData.format` and
`CompileData.append`. -/
def mainTrace (env : Env) (rankResp : RankingResponse)
    (histResp : String → String → HistResponse) : List Op :=
  if falsy env.client_id || falsy env.token then
    [Op.logCredsError]
  else
    match (scrape rankResp).1 with
    | none => [Op.httpRanking]
    | some streamers =>
      Op.httpRanking ::
        (historyOps streamers ++ databaseOps streamers ++
          appendOps (format (history histResp streamers)))

/-! ## Theorems -/

/-- C5: storage table-name derivation is a pure, deterministic function of
the entity key - always the fixed text `streamer_` applied to the lowercased
key - so keys equal after lowercasing (in particular keys differing only in
letter case, and identical keys) yield the same table name, and the
derivations in `CompileData.database` and `CompileData.format` agree. -/
theorem C5_table_name_derivation (k1 k2 : String)
    (h : strLower k1 = strLower k2) :
    tableNameDatabase k1 = tableNameFormat k2 ∧
      tableNameDatabase k1 = "streamer_" ++ strLower k1 := by
  unfold tableNameDatabase tableNameFormat
  rw [h]
  exact ⟨rfl, rfl⟩

/-- Witness for C5 at the case-variant pair `TwitchFan` / `tWITCHfAN`. -/
theorem C5_table_name_derivation_witness :
    tableNameDatabase "TwitchFan" = tableNameFormat "tWITCHfAN" ∧
      tableNameDatabase "TwitchFan" = "streamer_" ++ strLower "TwitchFan" :=
  C5_table_name_derivation "TwitchFan" "tWITCHfAN" (by decide)

/-- C7: for every ranking response whose HTTP status is not success,
`GetStreamers.scrape` returns the empty streamer list, the condition is
logged at error level, and no exception escapes to the caller. -/
theorem C7_non_success_returns_empty (resp : RankingResponse)
    (h : resp.status ≠ 200) :
    (scrape resp).1 = some [] ∧
      LogLevel.error ∈ (scrape resp).2 ∧
      scrape resp =
        (some [], [LogLevel.info, LogLevel.debug, LogLevel.error]) := by
  unfold scrape
  simp [h]

/-- Witness for C7 at a concrete 500 response. -/
theorem C7_non_success_returns_empty_witness :
    (scrape ⟨500, []⟩).1 = some [] ∧
      LogLevel.error ∈ (scrape ⟨500, []⟩).2 ∧
      scrape ⟨500, []⟩ =
        (some [], [LogLevel.info, LogLevel.debug, LogLevel.error]) :=
  C7_non_success_returns_empty ⟨500, []⟩ (by decide)

/-- C6: when `CLIENT_ID` or `TOKEN` is absent from the environment, the run
logs the credentials error and terminates at once: its trace is the single
log record, so in particular it contains no HTTP request and no database
connection. -/
theorem C6_missing_credentials (env : Env) (rankResp : RankingResponse)
    (histResp : String → String → HistResponse)
    (h : env.client_id = none ∨ env.token = none) :
    mainTrace env rankResp histResp = [Op.logCredsError] ∧
      Op.httpRanking ∉ mainTrace env rankResp histResp ∧
      Op.dbConnect ∉ mainTrace env rankResp histResp := by
  have hf : (falsy env.client_id || falsy env.token) = true := by
    rcases h with h | h <;> simp [h, falsy]
  refine ⟨by simp [mainTrace, hf], ?_, ?_⟩ <;> simp [mainTrace, hf]

/-- Witness for C6: absent `CLIENT_ID`, concrete responses. -/
theorem C6_missing_credentials_witness :
    mainTrace ⟨none, some "tok"⟩ ⟨200, []⟩ (fun _ _ => ⟨500, none⟩) =
        [Op.logCredsError] ∧
      Op.httpRanking ∉
        mainTrace ⟨none, some "tok"⟩ ⟨200, []⟩ (fun _ _ => ⟨500, none⟩) ∧
      Op.dbConnect ∉
        mainTrace ⟨none, some "tok"⟩ ⟨200, []⟩ (fun _ _ => ⟨500, none⟩) :=
  C6_missing_credentials ⟨none, some "tok"⟩ ⟨200, []⟩ (fun _ _ => ⟨500, none⟩)
    (Or.inl rfl)

/-- The comparison of the ranking sort is transitive. -/
theorem descLe_trans (a b c : RankEntry) (h1 : descLe a b) (h2 : descLe b c) :
    descLe a c := by
  simp only [descLe, decide_eq_true_eq] at h1 h2 ⊢
  exact le_trans h2 h1

/-- The comparison of the ranking sort is total. -/
theorem descLe_total (a b : RankEntry) : descLe a b || descLe b a := by
  simp only [descLe, Bool.or_eq_true, decide_eq_true_eq]
  exact le_total (viewersKey b) (viewersKey a)

/-- When every entry carries `channel_name`, the comprehension of line 39
returns exactly the names, in order. -/
theorem channelNames_of_isSome (l : List RankEntry)
    (h : ∀ e ∈ l, e.channel_name.isSome) :
    channelNames l = some (l.map (fun e => e.channel_name.getD "")) := by
  induction l with
  | nil => rfl
  | cons a l ih =>
    obtain ⟨n, hn⟩ :=
      Option.isSome_iff_exists.mp (h a (List.mem_cons_self a l))
    have ih2 := ih (fun e he => h e (List.mem_cons_of_mem a he))
    simp [channelNames, hn, ih2]

/-- C3 (amended): for every status-200 ranking response all of whose top-20
entries (after the sort) carry `channel_name`, `GetStreamers.scrape` returns
exactly the names of the first 20 elements of the stable descending sort of
the response: the result has `min 20 n` elements for a response of `n`
entries (20 when `n ≥ 20`, `n` when `n < 20`), the sorted list is a
permutation of the response sorted descending by the viewers key, and two
response entries with equal keys keep their original relative order. -/
theorem C3_scrape_sorted_top20 (resp : RankingResponse)
    (hs : resp.status = 200)
    (hn : ∀ e ∈ (resp.data.mergeSort descLe).take 20, e.channel_name.isSome) :
    (scrape resp).1 =
        some (((resp.data.mergeSort descLe).take 20).map
          (fun e => e.channel_name.getD "")) ∧
      (((resp.data.mergeSort descLe).take 20).map
          (fun e => e.channel_name.getD "")).length = min 20 resp.data.length ∧
      (20 ≤ resp.data.length →
        (((resp.data.mergeSort descLe).take 20).map
          (fun e => e.channel_name.getD "")).length = 20) ∧
      (resp.data.length < 20 →
        (((resp.data.mergeSort descLe).take 20).map
          (fun e => e.channel_name.getD "")).length = resp.data.length) ∧
      (resp.data.mergeSort descLe).Pairwise
        (fun a b => viewersKey b ≤ viewersKey a) ∧
      (resp.data.mergeSort descLe).Perm resp.data ∧
      (∀ a b, List.Sublist [a, b] resp.data → viewersKey a = viewersKey b →
        List.Sublist [a, b] (resp.data.mergeSort descLe)) := by
  have hlen : (((resp.data.mergeSort descLe).take 20).map
      (fun e => e.channel_name.getD "")).length = min 20 resp.data.length := by
    simp [List.length_map, List.length_take]
  refine ⟨?_, hlen, fun h20 => ?_, fun h20 => ?_, ?_, ?_, ?_⟩
  · simp only [scrape, if_pos hs, channelNames_of_isSome _ hn]
  · omega
  · omega
  · exact (List.sorted_mergeSort descLe_trans descLe_total resp.data).imp
      (fun h => by simpa [descLe] using h)
  · exact List.mergeSort_perm resp.data descLe
  · intro a b hsub hkey
    exact List.pair_sublist_mergeSort descLe_trans descLe_total
      (by simp [descLe, hkey]) hsub

unseal List.merge List.mergeSort in
/-- Witness for C3 at a concrete two-entry status-200 response. -/
theorem C3_scrape_sorted_top20_witness :
    (scrape ⟨200, [⟨some "x", some 3⟩, ⟨some "y", some 9⟩]⟩).1 =
        some ((([⟨some "x", some 3⟩,
            ⟨some "y", some 9⟩].mergeSort descLe).take 20).map
          (fun e => e.channel_name.getD "")) ∧
      ((([⟨some "x", some 3⟩,
            ⟨some "y", some 9⟩].mergeSort descLe).take 20).map
          (fun e => e.channel_name.getD "")).length = min 20 2 ∧
      (20 ≤ 2 →
        ((([⟨some "x", some 3⟩,
            ⟨some "y", some 9⟩].mergeSort descLe).take 20).map
          (fun e => e.channel_name.getD "")).length = 20) ∧
      (2 < 20 →
        ((([⟨some "x", some 3⟩,
            ⟨some "y", some 9⟩].mergeSort descLe).take 20).map
          (fun e => e.channel_name.getD "")).length = 2) ∧
      ([⟨some "x", some 3⟩, ⟨some "y", some 9⟩].mergeSort descLe).Pairwise
        (fun a b => viewersKey b ≤ viewersKey a) ∧
      ([(⟨some "x", some 3⟩ : RankEntry),
          ⟨some "y", some 9⟩].mergeSort descLe).Perm
        [⟨some "x", some 3⟩, ⟨some "y", some 9⟩] ∧
      (∀ a b,
        List.Sublist [a, b] [(⟨some "x", some 3⟩ : RankEntry),
          ⟨some "y", some 9⟩] →
        viewersKey a = viewersKey b →
        List.Sublist [a, b]
          ([(⟨some "x", some 3⟩ : RankEntry),
            ⟨some "y", some 9⟩].mergeSort descLe)) :=
  C3_scrape_sorted_top20 ⟨200, [⟨some "x", some 3⟩, ⟨some "y", some 9⟩]⟩
    rfl (by decide)

unseal List.merge List.mergeSort in
/-- C3 counterexample: a status-200 response with a single entry - fewer than
20 - that lacks `channel_name`: instead of returning a fully sorted
one-element sequence, `GetStreamers.scrape` hits an uncaught `KeyError`
(result `none`), so the claim fails for this successful response. -/
theorem C3_counterexample :
    (scrape ⟨200, [⟨none, some 7⟩]⟩).1 = none := by decide

unseal List.merge List.mergeSort in
/-- C10: on the status-200 response `[low 5, unnamed 100]` the unnamed entry
ranks in the top 20 and `scrape` raises (`none`) instead of returning a
sequence; and on `[c at -3, b with no average_viewers, a at 5]` the entry
lacking `average_viewers` is sorted as if the metric were 0, landing between
5 and -3 rather than being rejected. -/
theorem C10_missing_field_behavior :
    (scrape ⟨200, [⟨some "low", some 5⟩, ⟨none, some 100⟩]⟩).1 = none ∧
      (scrape ⟨200, [⟨some "c", some (-3)⟩, ⟨some "b", none⟩,
        ⟨some "a", some 5⟩]⟩).1 = some ["a", "b", "c"] := by
  decide

/-- A row insert never changes the committed rows. -/
theorem executeInsert_committed (err : ErrOracle) (conn : PgConn)
    (t : String) (l : Line) :
    (executeInsert err conn t l).committed = conn.committed := by
  unfold executeInsert
  split
  · rfl
  split <;> rfl

/-- The inner loop of `CompileData.append` never changes the committed
rows: only the final `conn.commit()` of line 141 does. -/
theorem appendLines_committed (err : ErrOracle) (t : String) (ls : List Line)
    (conn : PgConn) :
    (appendLines err conn t ls).committed = conn.committed := by
  induction ls generalizing conn with
  | nil => rfl
  | cons l ls ih =>
    rw [appendLines, ih, executeInsert_committed]

/-- With no exceptions, a row insert is exactly conditional insertion. -/
theorem executeInsert_noErr (conn : PgConn) (t : String) (l : Line) :
    executeInsert noErr conn t l =
      if rowVisible conn t l.1 then conn
      else { conn with pending := conn.pending ++ [(t, l)] } := by
  simp [executeInsert, noErr]

/-- A row just appended to the pending inserts is visible. -/
theorem rowVisible_of_mem (conn : PgConn) (t : String) (l : Line)
    (h : (t, l) ∈ conn.committed ++ conn.pending) :
    rowVisible conn t l.1 = true := by
  simp only [rowVisible, List.any_eq_true, decide_eq_true_eq]
  exact ⟨(t, l), h, rfl, rfl⟩

/-- A table holds no row for a date exactly when no such row is visible on a
fresh connection. -/
theorem rowsFor_eq_nil_iff (stored : List (String × Line)) (t : String)
    (d : Option String) :
    rowsFor stored t d = [] ↔ rowVisible ⟨stored, []⟩ t d = false := by
  simp only [rowsFor, rowVisible, List.append_nil, List.map_eq_nil_iff,
    List.filter_eq_nil_iff, List.any_eq_false, decide_eq_true_eq]

/-- C1: the insert of `CompileData.append` is insert-if-absent on the
period label: in an error-free run, appending the same row twice in one
batch equals appending it once, a second identical run changes nothing (no
duplicate row, no overwrite), and a row appended to a table with no row for
its date ends up stored as exactly one row with that date. -/
theorem C1_append_insert_if_absent (stored : List (String × Line))
    (t : String) (l : Line) :
    append noErr [(t, [l, l])] stored = append noErr [(t, [l])] stored ∧
      append noErr [(t, [l])] (append noErr [(t, [l])] stored) =
        append noErr [(t, [l])] stored ∧
      (rowsFor stored t l.1 = [] →
        rowsFor (append noErr [(t, [l])] stored) t l.1 = [l]) := by
  by_cases hv : rowVisible ⟨stored, []⟩ t l.1
  · have h1 : appendLines noErr ⟨stored, []⟩ t [l] = ⟨stored, []⟩ := by
      simp [appendLines, executeInsert_noErr, hv]
    have h2 : appendLines noErr ⟨stored, []⟩ t [l, l] = ⟨stored, []⟩ := by
      simp [appendLines, executeInsert_noErr, hv]
    refine ⟨?_, ?_, ?_⟩
    · simp [append, h1, h2]
    · simp [append, h1, commitConn]
    · intro h0
      rw [rowsFor_eq_nil_iff] at h0
      rw [hv] at h0
      cases h0
  · have hv2 : rowVisible ⟨stored, [(t, l)]⟩ t l.1 = true :=
      rowVisible_of_mem ⟨stored, [(t, l)]⟩ t l (by simp)
    have h1 : appendLines noErr ⟨stored, []⟩ t [l] = ⟨stored, [(t, l)]⟩ := by
      simp [appendLines, executeInsert_noErr, hv]
    have h2 : appendLines noErr ⟨stored, []⟩ t [l, l] = ⟨stored, [(t, l)]⟩ := by
      simp [appendLines, executeInsert_noErr, hv, hv2]
    have hv3 : rowVisible ⟨stored ++ [(t, l)], []⟩ t l.1 = true :=
      rowVisible_of_mem ⟨stored ++ [(t, l)], []⟩ t l (by simp)
    have h3 : appendLines noErr ⟨stored ++ [(t, l)], []⟩ t [l] =
        ⟨stored ++ [(t, l)], []⟩ := by
      simp [appendLines, executeInsert_noErr, hv3]
    refine ⟨?_, ?_, ?_⟩
    · simp [append, h1, h2]
    · simp [append, h1, h3, commitConn]
    · intro h0
      have he : append noErr [(t, [l])] stored = stored ++ [(t, l)] := by
        simp [append, h1, commitConn]
      rw [he]
      have hsplit : rowsFor (stored ++ [(t, l)]) t l.1 =
          rowsFor stored t l.1 ++ [l] := by
        simp [rowsFor, List.filter_append]
      rw [hsplit, h0, List.nil_append]

/-- Witness for C1: one period row appended twice to an empty store. -/
theorem C1_append_insert_if_absent_witness :
    append noErr
        [("streamer_foo",
          [(some "7-days", some 120, some 5),
            (some "7-days", some 120, some 5)])] [] =
      append noErr
        [("streamer_foo", [(some "7-days", some 120, some 5)])] [] ∧
      append noErr [("streamer_foo", [(some "7-days", some 120, some 5)])]
        (append noErr
          [("streamer_foo", [(some "7-days", some 120, some 5)])] []) =
        append noErr
          [("streamer_foo", [(some "7-days", some 120, some 5)])] [] ∧
      rowsFor
        (append noErr
          [("streamer_foo", [(some "7-days", some 120, some 5)])] [])
        "streamer_foo" (some "7-days") =
        [(some "7-days", some 120, some 5)] := by
  have h := C1_append_insert_if_absent [] "streamer_foo"
    (some "7-days", some 120, some 5)
  exact ⟨h.1, h.2.1, h.2.2 (by decide)⟩

/-- C2 counterexample: in the single batch holding the rows `7-days` (fine),
a NULL-date row (its insert raises), and `last-month` (fine), the `7-days`
row is inserted successfully before the failure, yet `conn.rollback()` at
line 140 rolls back the whole uncommitted transaction, so after the run the
table holds only the `last-month` row: the row inserted before the failing
row is lost, contradicting the claim. -/
theorem C2_counterexample :
    append pgNullKeyErr
        [("streamer_foo",
          [(some "7-days", some 10, some 3), (none, some 1, some 1),
            (some "last-month", some 20, some 4)])] [] =
      [("streamer_foo", (some "last-month", some 20, some 4))] ∧
      rowsFor
        (append pgNullKeyErr
          [("streamer_fooquoted",
            [(some "7-days", some 10, some 3), (none, some 1, some 1),
              (some "last-month", some 20, some 4)])] [])
        "streamer_fooquoted" (some "7-days") = [] := by
  decide

/-- C2 (amended): an exception while inserting one row is caught and the
remaining rows of the batch are still attempted, but `conn.rollback()`
discards the entire uncommitted transaction state, not only the failing
row: after the failing row the connection continues with unchanged committed
rows and empty pending inserts, so every row buffered since the last commit
is lost while rows committed in earlier runs survive. -/
theorem C2_rollback_discards_batch (err : ErrOracle) (conn : PgConn)
    (t : String) (xs ys : List Line) (l : Line) (hl : err t l = true) :
    appendLines err conn t (xs ++ l :: ys) =
      appendLines err { committed := conn.committed, pending := [] } t ys := by
  induction xs generalizing conn with
  | nil =>
    have hstep : executeInsert err conn t l =
        { committed := conn.committed, pending := [] } := by
      simp [executeInsert, hl]
    rw [List.nil_append, appendLines, hstep]
  | cons x xs ih =>
    rw [List.cons_append, appendLines, ih (executeInsert err conn t x),
      executeInsert_committed]

/-- Witness for C2 (amended) at the concrete failing batch of the
counterexample. -/
theorem C2_rollback_discards_batch_witness :
    appendLines pgNullKeyErr ⟨[], []⟩ "streamer_foo"
        ([(some "7-days", some 10, some 3)] ++ (none, some 1, some 1) ::
          [(some "last-month", some 20, some 4)]) =
      appendLines pgNullKeyErr ⟨[], []⟩ "streamer_foo"
        [(some "last-month", some 20, some 4)] :=
  C2_rollback_discards_batch pgNullKeyErr ⟨[], []⟩ "streamer_foo"
    [(some "7-days", some 10, some 3)]
    [(some "last-month", some 20, some 4)]
    (none, some 1, some 1) (by decide)

unseal List.merge List.mergeSort in
/-- C4 counterexample: with credentials present and an empty status-200
ranking, the run does not terminate after the ranking fetch: its trace still
contains the database connections of the schema-ensure and append steps
(`CompileData.database` and `CompileData.append` are both invoked on the
empty data), so the empty-ranking case is no early-halt point. -/
theorem C4_counterexample :
    mainTrace ⟨some "id", some "tok"⟩ ⟨200, []⟩ (fun _ _ => ⟨500, none⟩) =
        [Op.httpRanking, Op.dbConnect, Op.dbConnect] ∧
      Op.dbConnect ∈
        mainTrace ⟨some "id", some "tok"⟩ ⟨200, []⟩
          (fun _ _ => ⟨500, none⟩) := by
  decide

/-- C4 (amended): when the credentials are present and the ranking response
is a successful empty one, the run does not halt early: it still performs
zero history fetches, zero table creations and zero row inserts, but it does
invoke the schema-ensure and record-append steps, each opening a database
connection; the only early-exit of `main` is the missing-credentials check. -/
theorem C4_empty_ranking_no_early_halt (env : Env)
    (rankResp : RankingResponse)
    (histResp : String → String → HistResponse)
    (hc : falsy env.client_id = false) (ht : falsy env.token = false)
    (hs : rankResp.status = 200) (hd : rankResp.data = []) :
    mainTrace env rankResp histResp =
      [Op.httpRanking, Op.dbConnect, Op.dbConnect] := by
  have hscrape : (scrape rankResp).1 = some [] := by
    simp [scrape, hs, hd, channelNames]
  simp [mainTrace, hc, ht, hscrape, historyOps, databaseOps, appendOps,
    history, format]

/-- Witness for C4 (amended) at concrete credentials and responses. -/
theorem C4_empty_ranking_no_early_halt_witness :
    mainTrace ⟨some "cid", some "tok"⟩ ⟨200, []⟩ (fun _ _ => ⟨404, none⟩) =
      [Op.httpRanking, Op.dbConnect, Op.dbConnect] :=
  C4_empty_ranking_no_early_halt ⟨some "cid", some "tok"⟩ ⟨200, []⟩
    (fun _ _ => ⟨404, none⟩) rfl rfl rfl rfl

/-- Looking a key up after a dict assignment: the assigned key reads the new
value, every other key is untouched. -/
theorem dictLookup_dictInsert {V : Type} (m : List (String × V))
    (k q : String) (v : V) :
    dictLookup (dictInsert m k v) q =
      if q = k then some v else dictLookup m q := by
  induction m with
  | nil =>
    rcases eq_or_ne q k with h | h
    · subst h
      simp [dictInsert, dictLookup]
    · simp [dictInsert, dictLookup, h, Ne.symm h]
  | cons p m ih =>
    rw [dictInsert]
    rcases eq_or_ne p.1 k with h1 | h1
    · rw [if_pos h1]
      rcases eq_or_ne q k with h2 | h2
      · subst h2
        simp [dictLookup]
      · simp [dictLookup, h1, h2, Ne.symm h2]
    · rw [if_neg h1]
      rcases eq_or_ne p.1 q with h2 | h2
      · have hqk : q ≠ k := fun hh => h1 (h2.trans hh)
        simp [dictLookup, h2, hqk]
      · simp [dictLookup, h2, ih]

/-- A key assigned somewhere during a left fold of dict assignments with a
fixed value function reads that value at the end. -/
theorem dictLookup_foldl {V : Type} (f : String → V) (streamers : List String)
    (acc : List (String × V)) (s : String)
    (h : s ∈ streamers ∨ dictLookup acc s = some (f s)) :
    dictLookup (streamers.foldl (fun m q => dictInsert m q (f q)) acc) s =
      some (f s) := by
  induction streamers generalizing acc with
  | nil =>
    rcases h with h | h
    · cases h
    · simpa using h
  | cons x xs ih =>
    rw [List.foldl_cons]
    apply ih
    rcases h with h | h
    · rcases List.mem_cons.mp h with h | h
      · subst h
        right
        rw [dictLookup_dictInsert]
        simp
      · left
        exact h
    · right
      rw [dictLookup_dictInsert]
      rcases eq_or_ne s x with h2 | h2
      · subst h2
        simp
      · rw [if_neg h2]
        exact h

/-- A single failing (streamer, period) response pair changes the collected
history only by dropping that one period: every other period of the same
streamer is kept as before. -/
theorem filterMap_one_failure (hrA hrB : String → String → HistResponse)
    (s0 p0 : String)
    (hagree : ∀ q p, ¬(q = s0 ∧ p = p0) → hrB q p = hrA q p)
    (hfail : (hrB s0 p0).status ≠ 200) (ps : List String) :
    ps.filterMap (succRecord hrB s0) =
      ps.filterMap (fun p => if p = p0 then none else succRecord hrA s0 p) := by
  induction ps with
  | nil => rfl
  | cons p ps ih =>
    rcases eq_or_ne p p0 with h | h
    · have hz : succRecord hrB s0 p0 = none := by
        unfold succRecord
        simp [hfail]
      simp [List.filterMap_cons, h, hz, ih]
    · have he : succRecord hrB s0 p = succRecord hrA s0 p := by
        unfold succRecord
        rw [hagree s0 p (fun hh => h hh.2)]
      simp [List.filterMap_cons, he, h, ih]

/-- C8: a failed history fetch for one (streamer, period) pair drops only
that period record - other streamers and the other periods of the same
streamer are collected as if no failure happened; a streamer all of whose
fetches fail is still retained as a key of the history dict mapping to the
empty record list; and downstream, normalization keeps the key with an empty
line list while the append loop over an empty line list inserts nothing. -/
theorem C8_partial_failure_isolation (hrA hrB : String → String → HistResponse)
    (s0 p0 s : String) (streamers : List String) :
    ((∀ q p, ¬(q = s0 ∧ p = p0) → hrB q p = hrA q p) →
        (hrB s0 p0).status ≠ 200 →
        (∀ q, q ≠ s0 → historyOne hrB q = historyOne hrA q) ∧
          historyOne hrB s0 = timePeriods.filterMap
            (fun p => if p = p0 then none else succRecord hrA s0 p)) ∧
      (s ∈ streamers →
        dictLookup (history hrA streamers) s = some (historyOne hrA s)) ∧
      ((∀ p ∈ timePeriods, (hrA s p).status ≠ 200) → historyOne hrA s = []) ∧
      (∀ q recs, format [(q, recs)] = [(tableNameFormat q, recs.map formatLine)]) ∧
      (∀ err conn t, appendLines err conn t [] = conn) := by
  refine ⟨fun hagree hfail => ⟨?_, ?_⟩, ?_, ?_, ?_, ?_⟩
  · intro q hq
    have e : succRecord hrB q = succRecord hrA q := by
      funext p
      unfold succRecord
      rw [hagree q p (fun hh => hq hh.1)]
    rw [historyOne, historyOne, e]
  · exact filterMap_one_failure hrA hrB s0 p0 hagree hfail timePeriods
  · intro hmem
    exact dictLookup_foldl (historyOne hrA) streamers [] s (Or.inl hmem)
  · intro hall
    rw [historyOne, List.filterMap_eq_nil_iff]
    intro p hp
    unfold succRecord
    simp [hall p hp]
  · intro q recs
    rfl
  · intro err conn t
    rfl

/-- History responses for the C8 witness: every fetch for streamer `foo`
fails with a 500, every other fetch succeeds. -/
def hrA0 : String → String → HistResponse :=
  fun q _ => if q = "foo" then ⟨500, none⟩ else ⟨200, some ⟨some 7, some 3, none⟩⟩

/-- History responses for the C8 witness: like `hrA0`, except that the fetch
for streamer `bar` at period `last-month` also fails. -/
def hrB0 : String → String → HistResponse :=
  fun q p => if q = "bar" ∧ p = "last-month" then ⟨500, none⟩ else hrA0 q p

/-- Witness for C8 at the concrete responses `hrA0` / `hrB0`. -/
theorem C8_partial_failure_isolation_witness :
    historyOne hrB0 "other" = historyOne hrA0 "other" ∧
      historyOne hrB0 "bar" = timePeriods.filterMap
        (fun p => if p = "last-month" then none else succRecord hrA0 "bar" p) ∧
      dictLookup (history hrA0 ["foo"]) "foo" = some (historyOne hrA0 "foo") ∧
      historyOne hrA0 "foo" = [] ∧
      format [("Foo", [])] = [(tableNameFormat "Foo", [])] ∧
      appendLines noErr ⟨[], []⟩ "streamer_foo" [] = ⟨[], []⟩ := by
  have hagree : ∀ q p, ¬(q = "bar" ∧ p = "last-month") → hrB0 q p = hrA0 q p := by
    intro q p h
    unfold hrB0
    rw [if_neg h]
  have h := C8_partial_failure_isolation hrA0 hrB0 "bar" "last-month" "foo" ["foo"]
  refine ⟨(h.1 hagree (by decide)).1 "other" (by decide),
    (h.1 hagree (by decide)).2,
    h.2.1 (by decide),
    h.2.2.1 (by decide),
    ?_, ?_⟩
  · have := h.2.2.2.1 "Foo" []
    simpa using this
  · exact h.2.2.2.2 noErr ⟨[], []⟩ "streamer_foo"

/-- Membership after a dict assignment: a stored pair was either already
present or is the assigned pair. -/
theorem mem_dictInsert {V : Type} (m : List (String × V)) (k : String) (v : V)
    (q : String × V) (h : q ∈ dictInsert m k v) : q ∈ m ∨ q = (k, v) := by
  induction m with
  | nil =>
    right
    simpa [dictInsert] using h
  | cons p m ih =>
    rw [dictInsert] at h
    by_cases hc : p.1 = k
    · rw [if_pos hc] at h
      rcases List.mem_cons.mp h with h | h
      · right
        exact h
      · left
        exact List.mem_cons_of_mem p h
    · rw [if_neg hc] at h
      rcases List.mem_cons.mp h with h | h
      · subst h
        left
        exact List.mem_cons_self _ _
      · rcases ih h with h | h
        · left
          exact List.mem_cons_of_mem p h
        · right
          exact h

/-- Every table entry built by `CompileData.format` comes verbatim from one
input streamer: its lines are exactly the field tuples of the records. -/
theorem mem_format (hd : List (String × List HistRecord))
    (acc : List (String × List Line)) (q : String × List Line)
    (h : q ∈ hd.foldl
      (fun acc p => dictInsert acc (tableNameFormat p.1) (p.2.map formatLine))
      acc) :
    q ∈ acc ∨
      ∃ s recs, (s, recs) ∈ hd ∧ q = (tableNameFormat s, recs.map formatLine) := by
  induction hd generalizing acc with
  | nil =>
    left
    simpa using h
  | cons p hd ih =>
    rw [List.foldl_cons] at h
    rcases ih _ h with h | ⟨s, recs, hm, he⟩
    · rcases mem_dictInsert _ _ _ _ h with h | h
      · left
        exact h
      · right
        exact ⟨p.1, p.2, by simp, h⟩
    · right
      exact ⟨s, recs, List.mem_cons_of_mem p hm, he⟩

/-- C9: the normalizer passes every field through unchanged - each stored
tuple component equals the corresponding record field, so a missing
`average_viewers` or `stream_days` stays `none` in the output tuple instead
of being replaced by a default. -/
theorem C9_missing_numerics_pass_through
    (history_data : List (String × List HistRecord)) (t : String)
    (ls : List Line) (hin : (t, ls) ∈ format history_data)
    (l : Line) (hl : l ∈ ls) :
    ∃ s recs r, (s, recs) ∈ history_data ∧ r ∈ recs ∧
      l.1 = r.date ∧ l.2.1 = r.average_viewers ∧ l.2.2 = r.stream_days := by
  rcases mem_format history_data [] (t, ls) hin with h | ⟨s, recs, hm, he⟩
  · simp at h
  · have hls : ls = recs.map formatLine := congrArg Prod.snd he
    rw [hls] at hl
    rcases List.mem_map.mp hl with ⟨r, hr, hfr⟩
    exact ⟨s, recs, r, hm, hr, by rw [← hfr]; rfl, by rw [← hfr]; rfl,
      by rw [← hfr]; rfl⟩

/-- Witness for C9: a record with both numeric fields missing normalizes to
a tuple with both components still `none`. -/
theorem C9_missing_numerics_pass_through_witness :
    ∃ s recs r,
      (s, recs) ∈ [("Foo", [(⟨none, none, some "7-days"⟩ : HistRecord)])] ∧
      r ∈ recs ∧
      ((some "7-days", none, none) : Line).1 = r.date ∧
      ((some "7-days", none, none) : Line).2.1 = r.average_viewers ∧
      ((some "7-days", none, none) : Line).2.2 = r.stream_days :=
  C9_missing_numerics_pass_through
    [("Foo", [⟨none, none, some "7-days"⟩])] "streamer_foo"
    [(some "7-days", none, none)] (by decide)
    (some "7-days", none, none) (by decide)

end TwitchScraper
